import Mathlib

set_option autoImplicit false

namespace ChurchAdmin

/-! Shallow embedding of the church-admin REST backend
(Express + Prisma, TypeScript).  Each definition is translated from the
repository source; line references are given in the doc comments.
Database tables are lists of rows, JS `undefined`/`null` is `Option`,
JS numbers that hold money are rationals, timestamps are integers. -/

/-- The `CustomError` subclasses of src/middleware/errorHandler.ts
(lines 49-77) together with the generic `ApiError(statusCode, message)`
(lines 23-47) thrown by controllers. -/
inductive AppError where
  | validation (msg : String)
  | unauthorized (msg : String)
  | forbidden (msg : String)
  | notFound (msg : String)
  | conflict (msg : String)
  | api (statusCode : Nat) (msg : String)
deriving Repr, DecidableEq

/-- The statusCode each error class sets in its constructor
(errorHandler.ts lines 49-77). -/
def AppError.status : AppError → Nat
  | .validation _ => 400
  | .unauthorized _ => 401
  | .forbidden _ => 403
  | .notFound _ => 404
  | .conflict _ => 409
  | .api s _ => s

/-- The message carried by an error. -/
def AppError.msg : AppError → String
  | .validation m => m
  | .unauthorized m => m
  | .forbidden m => m
  | .notFound m => m
  | .conflict m => m
  | .api _ m => m

/-- req.user as set by the authenticate middleware
(src/middleware/auth.ts lines 75-80). -/
structure AuthUser where
  id : String
  email : String
  role : String
  isActive : Bool
deriving Repr, DecidableEq

/-- Outcome of an Express middleware: either next() with no argument
(continue down the chain) or next(error) (jump to the error handler). -/
inductive MiddlewareResult where
  | nextOk
  | nextErr (e : AppError)
deriving Repr, DecidableEq

/-- Whether the middleware let the request continue. -/
def MiddlewareResult.passes : MiddlewareResult → Bool
  | .nextOk => true
  | .nextErr _ => false

/-- src/middleware/auth.ts lines 93-109, authorize(allowedRoles):
no req.user forwards UnauthorizedError, a role outside the allow-list
forwards ForbiddenError, otherwise next() is called. -/
def authorize (allowedRoles : List String) (user : Option AuthUser) :
    MiddlewareResult :=
  match user with
  | none => .nextErr (.unauthorized "Authentication required")
  | some u =>
    if allowedRoles.contains u.role then .nextOk
    else .nextErr (.forbidden "Insufficient permissions")

/-- The allow-list installed by router.use at src/unnamed/part_000 line 85. -/
def eventOrganizerRoles : List String :=
  ["ADMIN", "SUPER_ADMIN", "EVENT_ORGANIZER", "MINISTRY_LEADER"]

/-- DELETE /events/:id sits below both router.use(authorize([...])) calls
(src/unnamed/part_000 lines 85, 106, 109), so the handler runs only when
the request passes the organizer-roles check and then the SUPER_ADMIN
check. -/
def deleteEventRouteAllowed (user : Option AuthUser) : Bool :=
  (authorize eventOrganizerRoles user).passes &&
    (authorize ["SUPER_ADMIN"] user).passes

/-- The dynamic code property of a JS error object: a number for Mongoose
duplicate-key errors (11000), a string for Prisma error codes (P2002, ...). -/
inductive JsCode where
  | num (n : Int)
  | str (s : String)
deriving Repr, DecidableEq

/-- A JavaScript error value as the central error handler sees it:
constructor name, message, the optional statusCode property set by the
CustomError / ApiError classes, the optional code property, and the
messages inside a Mongoose-style nested errors object. -/
structure JsError where
  name : String
  message : String
  statusCode : Option Nat := none
  code : Option JsCode := none
  errorsMessages : List String := []
deriving Repr, DecidableEq

/-- The pair (statusCode, message) the handler tracks while rewriting
the error (the local variable named error in errorHandler). -/
structure ErrView where
  statusCode : Option Nat
  message : String
deriving Repr, DecidableEq

/-- JS disjunction statusCode || 500: undefined and 0 are falsy. -/
def jsStatusOr500 : Option Nat → Nat
  | none => 500
  | some 0 => 500
  | some n => n

/-- JS disjunction s || fallback on strings: the empty string is falsy. -/
def jsStringOr (s fallback : String) : String :=
  if s = "" then fallback else s

/-- A JSON reply: HTTP status plus the success flag and message of the
response body. -/
structure JsonResponse where
  status : Nat
  success : Bool
  message : String
deriving Repr, DecidableEq

/-- src/middleware/errorHandler.ts lines 79-151.  The handler spreads the
incoming error, then a sequence of independent if statements (each testing
the original err) may replace it: CastError becomes NotFoundError(404),
code 11000 becomes ConflictError(409), name ValidationError becomes
ValidationError(400) with the joined nested messages, the two JWT error
names become UnauthorizedError(401), and PrismaClientKnownRequestError is
mapped through its code.  Finally res.status(error.statusCode || 500)
returns success: false with error.message || the generic text. -/
def errorHandler (err : JsError) : JsonResponse :=
  let e0 : ErrView := { statusCode := err.statusCode, message := err.message }
  let e1 := if err.name = "CastError" then
      ErrView.mk (some 404) "Resource not found" else e0
  let e2 := if err.code = some (.num 11000) then
      ErrView.mk (some 409) "Duplicate field value entered" else e1
  let e3 := if err.name = "ValidationError" then
      ErrView.mk (some 400) (String.intercalate ", " err.errorsMessages) else e2
  let e4 := if err.name = "JsonWebTokenError" then
      ErrView.mk (some 401) "Invalid token" else e3
  let e5 := if err.name = "TokenExpiredError" then
      ErrView.mk (some 401) "Token expired" else e4
  let e6 := if err.name = "PrismaClientKnownRequestError" then
      match err.code with
      | some (.str "P2002") => ErrView.mk (some 409) "Duplicate field value entered"
      | some (.str "P2025") => ErrView.mk (some 404) "Record not found"
      | _ => ErrView.mk (some 500) "Database error"
    else e5
  { status := jsStatusOr500 e6.statusCode
    success := false
    message := jsStringOr e6.message "Internal Server Error" }

/-- new ValidationError(msg) (errorHandler.ts lines 49-53).  A JS class
extending Error inherits name "Error"; none of these classes assigns
this.name, so the name-based rewrite branches never fire for them. -/
def mkValidationError (msg : String) : JsError :=
  { name := "Error", message := msg, statusCode := some 400 }

/-- new UnauthorizedError(msg) (errorHandler.ts lines 55-59). -/
def mkUnauthorizedError (msg : String) : JsError :=
  { name := "Error", message := msg, statusCode := some 401 }

/-- new ForbiddenError(msg) (errorHandler.ts lines 61-65). -/
def mkForbiddenError (msg : String) : JsError :=
  { name := "Error", message := msg, statusCode := some 403 }

/-- new NotFoundError(msg) (errorHandler.ts lines 67-71). -/
def mkNotFoundError (msg : String) : JsError :=
  { name := "Error", message := msg, statusCode := some 404 }

/-- new ConflictError(msg) (errorHandler.ts lines 73-77). -/
def mkConflictError (msg : String) : JsError :=
  { name := "Error", message := msg, statusCode := some 409 }

/-- The error names that trigger a name-based rewrite inside the handler. -/
def rewriteNames : List String :=
  ["CastError", "ValidationError", "JsonWebTokenError", "TokenExpiredError",
   "PrismaClientKnownRequestError"]

/-- A Member row (src/unnamed/part_001 lines 126-167). -/
structure Member where
  id : String
  name : String
  email : Option String := none
  phone : Option String := none
  age : Option Int := none
  gender : Option String := none
  address : Option String := none
  cellId : Option String := none
  occupation : Option String := none
  notes : Option String := none
  isActive : Bool := true
deriving Repr, DecidableEq

/-- A Ministry row (fields used by MinistryController). -/
structure Ministry where
  id : String
  name : String
  description : Option String := none
  type : Option String := none
  leaderId : Option String := none
  isActive : Bool := true
deriving Repr, DecidableEq

/-- An Event row (fields used by EventController). -/
structure Event where
  id : String
  title : String
  ministryId : Option String := none
  maxAttendees : Option Nat := none
  registrationRequired : Bool := false
  registrationDeadline : Option Int := none
  isActive : Bool := true
deriving Repr, DecidableEq

/-- An EventRegistration row; (eventId, memberId) is a composite unique
key and id is the primary key. -/
structure EventRegistration where
  id : Nat
  eventId : String
  memberId : String
  notes : Option String := none
  isActive : Bool := true
deriving Repr, DecidableEq

/-- An EventAttendance row; (eventId, memberId) is a composite unique key. -/
structure EventAttendance where
  id : Nat
  eventId : String
  memberId : String
  status : String
deriving Repr, DecidableEq

/-- A MemberMinistry join row; (memberId, ministryId) is a composite
unique key and id is the primary key. -/
structure MemberMinistry where
  id : Nat
  memberId : String
  ministryId : String
  role : String
  isActive : Bool := true
deriving Repr, DecidableEq

/-- A User row (fields used by NewAuthController). -/
structure User where
  id : String
  email : String
  isActive : Bool := true
  passwordResetToken : Option String := none
  passwordResetExpires : Option Int := none
deriving Repr, DecidableEq

/-- The relational database: each Prisma table as a list of rows. -/
structure DB where
  members : List Member := []
  ministries : List Ministry := []
  events : List Event := []
  registrations : List EventRegistration := []
  attendances : List EventAttendance := []
  memberMinistries : List MemberMinistry := []
  users : List User := []
deriving Repr, DecidableEq

/-! ### Default visibility of list endpoints (claim C2)

The three list endpoints read the isActive query parameter (a string when
supplied, absent otherwise) and build the Prisma where clause from it.
Only the isActive part of the where clause is modelled here: the claim is
about requests that supply no other filter, and the remaining filters
(search, cellId, ministryId, type, pagination) are independent of it. -/

/-- JS strict equality x === the string true, where x is either the raw
query-string value or the boolean destructuring default true.  A boolean
is never strictly equal to a string. -/
def queryEqTrueString : Option String → Bool
  | some s => s = "true"
  | none => false

/-- SimpleMemberController.getMembers (lines 16, 37-39): the destructuring
default isActive = true means the parameter is never undefined, so the
where clause always gets isActive: (isActive === the string true). -/
def getMembersWhereIsActive (qIsActive : Option String) : Option Bool :=
  some (queryEqTrueString qIsActive)

/-- MinistryController.getMinistries (lines 15, 36-38): identical pattern. -/
def getMinistriesWhereIsActive (qIsActive : Option String) : Option Bool :=
  some (queryEqTrueString qIsActive)

/-- MemberController.getAll (src/unnamed/part_002 line 31) passes
isActive: (isActive === the string true) to MemberService.findAll, where
lines 58-60 of MemberService.ts copy any defined value into the where
clause; the value is a boolean, hence always defined. -/
def getAllWhereIsActive (qIsActive : Option String) : Option Bool :=
  some (queryEqTrueString qIsActive)

/-- Applying the isActive part of a members where clause. -/
def filterMembersByIsActive (db : List Member) : Option Bool → List Member
  | none => db
  | some b => db.filter (fun m => m.isActive == b)

/-- Applying the isActive part of a ministries where clause. -/
def filterMinistriesByIsActive (db : List Ministry) : Option Bool → List Ministry
  | none => db
  | some b => db.filter (fun mi => mi.isActive == b)

/-- GET /members via SimpleMemberController with only the isActive
query parameter (possibly absent). -/
def getMembersRows (db : DB) (qIsActive : Option String) : List Member :=
  filterMembersByIsActive db.members (getMembersWhereIsActive qIsActive)

/-- GET /ministries via MinistryController with only the isActive query
parameter (possibly absent). -/
def getMinistriesRows (db : DB) (qIsActive : Option String) : List Ministry :=
  filterMinistriesByIsActive db.ministries (getMinistriesWhereIsActive qIsActive)

/-- GET /members via MemberController.getAll / MemberService.findAll with
only the isActive query parameter (possibly absent). -/
def getAllRows (db : DB) (qIsActive : Option String) : List Member :=
  filterMembersByIsActive db.members (getAllWhereIsActive qIsActive)

/-! ### MemberService create / update / delete (claims C5, C1) -/

/-- Partial Member payload; none encodes an absent (undefined) field. -/
structure MemberData where
  name : Option String := none
  email : Option String := none
  phone : Option String := none
  age : Option Int := none
  gender : Option String := none
  address : Option String := none
  cellId : Option String := none
  occupation : Option String := none
  notes : Option String := none
  isActive : Option Bool := none
deriving Repr, DecidableEq

/-- JS truthiness of an optional string: undefined and the empty string
are falsy. -/
def strTruthy : Option String → Bool
  | none => false
  | some s => s ≠ ""

/-- The member row prisma.member.create inserts
(MemberService.ts lines 148-168). -/
def newMemberFrom (data : MemberData) (newId : String) : Member :=
  { id := newId
    name := data.name.getD ""
    email := data.email
    phone := data.phone
    age := data.age
    gender := data.gender
    address := data.address
    cellId := data.cellId
    occupation := data.occupation
    notes := data.notes
    isActive := true }

/-- MemberService.create (MemberService.ts lines 137-171): when a truthy
email is supplied and a member with that email exists, throw
ConflictError; otherwise insert the new row.  newId models the id the
database generates. -/
def memberCreate (db : DB) (data : MemberData) (newId : String) :
    Except AppError Member × DB :=
  if strTruthy data.email ∧ (db.members.find? (fun m => m.email == data.email)).isSome then
    (.error (.conflict "Member with this email already exists"), db)
  else
    let m := newMemberFrom data newId
    (.ok m, { db with members := db.members ++ [m] })

/-- The partial field merge prisma.member.update applies
(MemberService.ts lines 193-207): name only when truthy, the other
fields whenever they are defined. -/
def mergeMember (existing : Member) (data : MemberData) : Member :=
  { existing with
    name := match data.name with
      | some n => if n ≠ "" then n else existing.name
      | none => existing.name
    email := match data.email with
      | some e => some e
      | none => existing.email
    phone := match data.phone with
      | some p => some p
      | none => existing.phone
    age := match data.age with
      | some a => some a
      | none => existing.age
    gender := match data.gender with
      | some g => some g
      | none => existing.gender
    address := match data.address with
      | some a => some a
      | none => existing.address
    cellId := match data.cellId with
      | some c => some c
      | none => existing.cellId
    occupation := match data.occupation with
      | some o => some o
      | none => existing.occupation
    notes := match data.notes with
      | some n => some n
      | none => existing.notes
    isActive := data.isActive.getD existing.isActive }

/-- MemberService.update (MemberService.ts lines 173-222): a missing id
returns null; a truthy email different from the current one that another
member already bears throws ConflictError before any write; otherwise the
row is updated with the partial merge. -/
def memberUpdate (db : DB) (id : String) (data : MemberData) :
    Except AppError (Option Member) × DB :=
  match db.members.find? (fun m => m.id == id) with
  | none => (.ok none, db)
  | some existing =>
    if strTruthy data.email ∧ data.email ≠ existing.email ∧
        (db.members.find? (fun m => m.email == data.email)).isSome then
      (.error (.conflict "Member with this email already exists"), db)
    else
      let updated := mergeMember existing data
      (.ok (some updated),
        { db with members := db.members.map (fun m => if m.id == id then updated else m) })

/-- MemberService.delete (MemberService.ts lines 224-233): a plain
prisma.member.delete wrapped in try/catch.  The row is removed when it
exists (true), otherwise the call reports false.  There is no
soft-deactivation branch: the isActive flag of no row is ever written. -/
def memberDelete (db : DB) (id : String) : Bool × DB :=
  if (db.members.find? (fun m => m.id == id)).isSome then
    (true, { db with members := db.members.filter (fun m => m.id != id) })
  else (false, db)

/-! ### Delete operations with dependent records (claim C1) -/

/-- EventController.deleteEvent (src/unnamed/part_001 lines 571-623):
count the active registrations and all attendance rows of the event; when
either count is positive only set isActive to false, otherwise delete the
row. -/
def deleteEvent (db : DB) (id : String) :
    Except (Nat × String) String × DB :=
  if id = "" then (.error (400, "Event ID is required"), db)
  else match db.events.find? (fun e => e.id == id) with
  | none => (.error (404, "Event not found"), db)
  | some _ =>
    let activeRegs := db.registrations.countP (fun r => r.eventId == id && r.isActive)
    let atts := db.attendances.countP (fun a => a.eventId == id)
    if activeRegs > 0 ∨ atts > 0 then
      (.ok "Event deactivated successfully (has existing registrations/attendance)",
        { db with events :=
            db.events.map (fun e => if e.id == id then { e with isActive := false } else e) })
    else
      (.ok "Event deleted successfully",
        { db with events := db.events.filter (fun e => e.id != id) })

/-- MinistryController.deleteMinistry (MinistryController.ts lines
332-381): count the active memberships and active events of the ministry;
a positive count throws ApiError(400) and nothing is written; otherwise
the row is deleted. -/
def deleteMinistry (db : DB) (id : String) :
    Except (Nat × String) String × DB :=
  if id = "" then (.error (400, "Ministry ID is required"), db)
  else match db.ministries.find? (fun mi => mi.id == id) with
  | none => (.error (404, "Ministry not found"), db)
  | some _ =>
    let activeMembers := db.memberMinistries.countP
      (fun mm => mm.ministryId == id && mm.isActive)
    let activeEvents := db.events.countP
      (fun e => e.ministryId == some id && e.isActive)
    if activeMembers > 0 then
      (.error (400, "Cannot delete ministry with active members. Remove all members first."), db)
    else if activeEvents > 0 then
      (.error (400, "Cannot delete ministry with active events. Delete or reassign events first."), db)
    else
      (.ok "Ministry deleted successfully",
        { db with ministries := db.ministries.filter (fun mi => mi.id != id) })

/-! ### Ministry membership operations (claim C9) -/

/-- The next auto-increment primary key for the MemberMinistry table. -/
def nextMemberMinistryId (db : DB) : Nat :=
  (db.memberMinistries.map (fun mm => mm.id)).foldr max 0 + 1

/-- MemberService.addToMinistry (MemberService.ts lines 235-287):
404 when member or ministry is missing; an existing active membership row
for the (memberId, ministryId) pair throws ConflictError; an existing
inactive row is reactivated in place (isActive true, new role); otherwise
a fresh row is inserted. -/
def addToMinistry (db : DB) (memberId ministryId role : String) :
    Except AppError Unit × DB :=
  if (db.members.find? (fun m => m.id == memberId)).isNone then
    (.error (.notFound "Member not found"), db)
  else if (db.ministries.find? (fun mi => mi.id == ministryId)).isNone then
    (.error (.notFound "Ministry not found"), db)
  else match db.memberMinistries.find?
      (fun mm => mm.memberId == memberId && mm.ministryId == ministryId) with
  | some mm =>
    if mm.isActive then
      (.error (.conflict "Member is already part of this ministry"), db)
    else
      let reactivated := db.memberMinistries.map
        (fun x => if x.id == mm.id then { x with isActive := true, role := role } else x)
      (.ok (), { db with memberMinistries := reactivated })
  | none =>
    let fresh : MemberMinistry :=
      { id := nextMemberMinistryId db, memberId := memberId,
        ministryId := ministryId, role := role, isActive := true }
    (.ok (), { db with memberMinistries := db.memberMinistries ++ [fresh] })

/-- MemberService.removeFromMinistry (MemberService.ts lines 289-307):
a missing (memberId, ministryId) row throws NotFoundError; otherwise the
row is updated in place to isActive false, never deleted. -/
def removeFromMinistry (db : DB) (memberId ministryId : String) :
    Except AppError Unit × DB :=
  match db.memberMinistries.find?
      (fun mm => mm.memberId == memberId && mm.ministryId == ministryId) with
  | none => (.error (.notFound "Member is not part of this ministry"), db)
  | some mm =>
    let deactivated := db.memberMinistries.map
      (fun x => if x.id == mm.id then { x with isActive := false } else x)
    (.ok (), { db with memberMinistries := deactivated })

/-- MinistryController.addMemberToMinistry (MinistryController.ts lines
441-524): same branching as the service version, with ApiError status
codes and the ministry looked up before the member. -/
def addMemberToMinistry (db : DB) (ministryId memberId role : String) :
    Except (Nat × String) Unit × DB :=
  if ministryId = "" ∨ memberId = "" then
    (.error (400, "Ministry ID and Member ID are required"), db)
  else if (db.ministries.find? (fun mi => mi.id == ministryId)).isNone then
    (.error (404, "Ministry not found"), db)
  else if (db.members.find? (fun m => m.id == memberId)).isNone then
    (.error (404, "Member not found"), db)
  else match db.memberMinistries.find?
      (fun mm => mm.memberId == memberId && mm.ministryId == ministryId) with
  | some mm =>
    if mm.isActive then
      (.error (409, "Member is already active in this ministry"), db)
    else
      let reactivated := db.memberMinistries.map
        (fun x => if x.id == mm.id then { x with isActive := true, role := role } else x)
      (.ok (), { db with memberMinistries := reactivated })
  | none =>
    let fresh : MemberMinistry :=
      { id := nextMemberMinistryId db, memberId := memberId,
        ministryId := ministryId, role := role, isActive := true }
    (.ok (), { db with memberMinistries := db.memberMinistries ++ [fresh] })

/-- MinistryController.removeMemberFromMinistry (MinistryController.ts
lines 527-562): a missing or already inactive row is a 404; otherwise the
row is deactivated in place. -/
def removeMemberFromMinistry (db : DB) (ministryId memberId : String) :
    Except (Nat × String) Unit × DB :=
  if ministryId = "" ∨ memberId = "" then
    (.error (400, "Ministry ID and Member ID are required"), db)
  else match db.memberMinistries.find?
      (fun mm => mm.memberId == memberId && mm.ministryId == ministryId) with
  | none => (.error (404, "Member is not active in this ministry"), db)
  | some mm =>
    if !mm.isActive then
      (.error (404, "Member is not active in this ministry"), db)
    else
      let deactivated := db.memberMinistries.map
        (fun x => if x.id == mm.id then { x with isActive := false } else x)
      (.ok (), { db with memberMinistries := deactivated })

/-! ### Event registration (claim C8) -/

/-- The number of active registrations of an event
(the _count of registrations where isActive true). -/
def activeRegCount (db : DB) (eventId : String) : Nat :=
  db.registrations.countP (fun r => r.eventId == eventId && r.isActive)

/-- The next auto-increment primary key for the EventRegistration table. -/
def nextRegistrationId (db : DB) : Nat :=
  (db.registrations.map (fun r => r.id)).foldr max 0 + 1

/-- EventController.registerForEvent (src/unnamed/part_001 lines
626-730), in source order: missing ids are a 400; an event that is absent
or inactive is a 404; a required registration whose deadline has passed
is a 400; a set (truthy, hence positive) maxAttendees with at least that
many active registrations is a 400 with message Event is full; a missing
member is a 404; an existing active registration for the
(eventId, memberId) pair is a 409; an existing inactive row is
reactivated in place; otherwise a fresh active row is inserted. -/
def registerForEvent (db : DB) (now : Int) (eventId memberId : String)
    (notes : Option String) : Except (Nat × String) Unit × DB :=
  if eventId = "" ∨ memberId = "" then
    (.error (400, "Event ID and Member ID are required"), db)
  else match db.events.find? (fun e => e.id == eventId && e.isActive) with
  | none => (.error (404, "Event not found or inactive"), db)
  | some ev =>
    let deadlinePassed := ev.registrationRequired &&
      (match ev.registrationDeadline with
       | some d => decide (now > d)
       | none => false)
    if deadlinePassed then
      (.error (400, "Registration deadline has passed"), db)
    else
      let isFull := match ev.maxAttendees with
        | some m => decide (0 < m) && decide (activeRegCount db eventId ≥ m)
        | none => false
      if isFull then (.error (400, "Event is full"), db)
      else if (db.members.find? (fun m => m.id == memberId)).isNone then
        (.error (404, "Member not found"), db)
      else match db.registrations.find?
          (fun r => r.eventId == eventId && r.memberId == memberId) with
      | some r =>
        if r.isActive then
          (.error (409, "Member is already registered for this event"), db)
        else
          let reactivated := db.registrations.map
            (fun x => if x.id == r.id then { x with isActive := true, notes := notes } else x)
          (.ok (), { db with registrations := reactivated })
      | none =>
        let fresh : EventRegistration :=
          { id := nextRegistrationId db, eventId := eventId,
            memberId := memberId, notes := notes, isActive := true }
        (.ok (), { db with registrations := db.registrations ++ [fresh] })

/-- EventController.cancelRegistration (src/unnamed/part_001 lines
733-768): a missing or already inactive registration is a 404; otherwise
the row is deactivated in place. -/
def cancelRegistration (db : DB) (eventId memberId : String) :
    Except (Nat × String) Unit × DB :=
  if eventId = "" ∨ memberId = "" then
    (.error (400, "Event ID and Member ID are required"), db)
  else match db.registrations.find?
      (fun r => r.eventId == eventId && r.memberId == memberId) with
  | none => (.error (404, "Registration not found or already cancelled"), db)
  | some r =>
    if !r.isActive then
      (.error (404, "Registration not found or already cancelled"), db)
    else
      let deactivated := db.registrations.map
        (fun x => if x.id == r.id then { x with isActive := false } else x)
      (.ok (), { db with registrations := deactivated })

/-- A registration-related request, for stating the capacity invariant
over sequential request execution. -/
inductive RegOp where
  | register (now : Int) (eventId memberId : String) (notes : Option String)
  | cancel (eventId memberId : String)
deriving Repr, DecidableEq

/-- The database after a registration-related request (the response is
irrelevant to the invariant). -/
def applyRegOp (db : DB) : RegOp → DB
  | .register now eid mid notes => (registerForEvent db now eid mid notes).2
  | .cancel eid mid => (cancelRegistration db eid mid).2

/-! ### Age-group statistics (claim C6) -/

/-- The six counters initialised by getAgeGroupStats
(MemberService.ts lines 419-426). -/
structure AgeGroupAcc where
  g0to17 : Nat := 0
  g18to25 : Nat := 0
  g26to35 : Nat := 0
  g36to50 : Nat := 0
  g51to65 : Nat := 0
  g65plus : Nat := 0
deriving Repr, DecidableEq

/-- One step of the forEach loop (MemberService.ts lines 428-436). -/
def ageGroupStep (acc : AgeGroupAcc) (age : Int) : AgeGroupAcc :=
  if age ≤ 17 then { acc with g0to17 := acc.g0to17 + 1 }
  else if age ≤ 25 then { acc with g18to25 := acc.g18to25 + 1 }
  else if age ≤ 35 then { acc with g26to35 := acc.g26to35 + 1 }
  else if age ≤ 50 then { acc with g36to50 := acc.g36to50 + 1 }
  else if age ≤ 65 then { acc with g51to65 := acc.g51to65 + 1 }
  else { acc with g65plus := acc.g65plus + 1 }

/-- The bucket label the if chain assigns to an age. -/
def ageBucket (age : Int) : String :=
  if age ≤ 17 then "0-17"
  else if age ≤ 25 then "18-25"
  else if age ≤ 35 then "26-35"
  else if age ≤ 50 then "36-50"
  else if age ≤ 65 then "51-65"
  else "65+"

/-- The fixed label order of the ageGroups object; none of the keys is an
integer index, so Object.entries preserves insertion order. -/
def ageGroupNames : List String :=
  ["0-17", "18-25", "26-35", "36-50", "51-65", "65+"]

/-- The ages the prisma query of getAgeGroupStats selects: active members
whose age is not null (MemberService.ts lines 414-417). -/
def activeAges (db : DB) : List Int :=
  (db.members.filter (fun m => m.isActive && m.age.isSome)).filterMap
    (fun m => m.age)

/-- MemberService.getAgeGroupStats (MemberService.ts lines 413-442):
fold the ages of active members through the counter object, then list the
six (label, count) pairs in insertion order. -/
def getAgeGroupStats (db : DB) : List (String × Nat) :=
  let r := (activeAges db).foldl ageGroupStep {}
  [("0-17", r.g0to17), ("18-25", r.g18to25), ("26-35", r.g26to35),
   ("36-50", r.g36to50), ("51-65", r.g51to65), ("65+", r.g65plus)]

/-! ### Periodic contribution statistics (claim C7)

JS numbers holding money are modelled as rationals and the JS Date as
UTC components; getMonth is 0-based as in JS. -/

/-- Year, 0-based month and day of month of a contribution date. -/
structure SimpleDate where
  year : Nat
  month : Nat
  day : Nat
deriving Repr, DecidableEq

/-- A Contribution row (fields selected by getPeriodicStats). -/
structure Contribution where
  date : SimpleDate
  amount : ℚ
deriving Repr, DecidableEq

/-- String(n).padStart(2, the zero digit). -/
def pad2 (n : Nat) : String :=
  if n < 10 then "0" ++ toString n else toString n

/-- The year as printed inside toISOString (four digits for the years a
church database holds). -/
def pad4 (n : Nat) : String :=
  if n < 10 then "000" ++ toString n
  else if n < 100 then "00" ++ toString n
  else if n < 1000 then "0" ++ toString n
  else toString n

/-- The period key of the switch in getPeriodicStats
(BaseController.ts lines 668-685): year-month for month, year-quarter
with quarter = floor(getMonth() / 3) + 1 for quarter, the year for year,
and the toISOString calendar day otherwise. -/
def periodKey (groupBy : String) (d : SimpleDate) : String :=
  if groupBy = "month" then toString d.year ++ "-" ++ pad2 (d.month + 1)
  else if groupBy = "quarter" then
    toString d.year ++ "-Q" ++ toString (d.month / 3 + 1)
  else if groupBy = "year" then toString d.year
  else pad4 d.year ++ "-" ++ pad2 (d.month + 1) ++ "-" ++ pad2 d.day

/-- One entry of the groupedStats object: running amount and count for a
period key. -/
def bumpPeriod (acc : List (String × ℚ × Nat)) (key : String) (amt : ℚ) :
    List (String × ℚ × Nat) :=
  match acc with
  | [] => [(key, amt, 1)]
  | (k, a, c) :: rest =>
    if k = key then (k, a + amt, c + 1) :: rest
    else (k, a, c) :: bumpPeriod rest key amt

/-- One reported period of the trends array. -/
structure PeriodStat where
  period : String
  totalAmount : ℚ
  count : Nat
  averageAmount : ℚ
deriving Repr, DecidableEq

/-- ContributionController.getPeriodicStats (BaseController.ts lines
655-701): fold the filtered contributions into the groupedStats object,
then report totalAmount, count and averageAmount = amount / count per
period.  The input list is the result of the prisma query, i.e. the
contributions matching the date filter. -/
def getPeriodicStats (contribs : List Contribution) (groupBy : String) :
    List PeriodStat :=
  let grouped := contribs.foldl
    (fun acc c => bumpPeriod acc (periodKey groupBy c.date) c.amount) []
  grouped.map (fun e =>
    { period := e.1, totalAmount := e.2.1, count := e.2.2,
      averageAmount := e.2.1 / (e.2.2 : ℚ) })

/-! ### Forgot password (claim C10) -/

/-- email.toLowerCase(), modelled characterwise so that concrete
instances evaluate by kernel reduction. -/
def lowerString (s : String) : String := String.mk (s.data.map Char.toLower)

/-- NewAuthController.forgotPassword (src/unnamed/part_003 lines
422-461): after validation the fixed 200 response is sent
unconditionally; only afterwards, when a user with the lower-cased email
exists, a reset token and expiry are stored.  resetToken models the
random token and expiry the computed expiry time. -/
def forgotPassword (db : DB) (email : String) (errorsEmpty : Bool)
    (resetToken : String) (expiry : Int) : JsonResponse × DB :=
  if !errorsEmpty then
    ({ status := 400, success := false, message := "Validation failed" }, db)
  else
    let resp : JsonResponse :=
      { status := 200, success := true,
        message := "If the email exists, a password reset link has been sent" }
    match db.users.find? (fun u => u.email == lowerString email) with
    | some u =>
      let updated := db.users.map (fun x =>
        if x.id == u.id then
          { x with passwordResetToken := some resetToken,
                   passwordResetExpires := some expiry }
        else x)
      (resp, { db with users := updated })
    | none => (resp, db)

/-! ### Specification-side notions and concrete sample databases -/

/-- Lookup in the groupedStats association list. -/
def lookupPeriod : List (String × ℚ × Nat) → String → Option (ℚ × Nat)
  | [], _ => none
  | (k, a, c) :: rest, key =>
    if k = key then some (a, c) else lookupPeriod rest key

/-- The sum of the amounts of the contributions falling in a period. -/
def periodSum (contribs : List Contribution) (groupBy key : String) : ℚ :=
  ((contribs.filter (fun c => periodKey groupBy c.date == key)).map
    (fun c => c.amount)).sum

/-- The number of contributions falling in a period. -/
def periodCount (contribs : List Contribution) (groupBy key : String) : Nat :=
  contribs.countP (fun c => periodKey groupBy c.date == key)

/-- Componentwise merge of optional (amount, count) aggregates. -/
def mergeOpt : Option (ℚ × Nat) → Option (ℚ × Nat) → Option (ℚ × Nat)
  | x, none => x
  | none, some y => some y
  | some (a, c), some (b, d) => some (a + b, c + d)

/-- The aggregate of a period: none when no contribution falls in it. -/
def groupOf (contribs : List Contribution) (groupBy key : String) :
    Option (ℚ × Nat) :=
  if periodCount contribs groupBy key = 0 then none
  else some (periodSum contribs groupBy key, periodCount contribs groupBy key)

/-- The composite unique key of a MemberMinistry row. -/
def pairOf (x : MemberMinistry) : String × String := (x.memberId, x.ministryId)

/-- At most one MemberMinistry row per (memberId, ministryId) pair: the
database-level composite unique constraint. -/
def pairwiseUniquePairs (l : List MemberMinistry) : Prop :=
  l.Pairwise (fun a b => ¬(pairOf a = pairOf b))

/-- An active sample member. -/
def sampleActiveMember : Member := { id := "m1", name := "Ann" }

/-- A soft-deleted sample member. -/
def sampleInactiveMember : Member :=
  { id := "m2", name := "Bob", isActive := false }

/-- A database holding one active and one soft-deleted member. -/
def sampleMembersDB : DB :=
  { members := [sampleActiveMember, sampleInactiveMember] }

/-- A ministry that still has one active member. -/
def ministryWithMemberDB : DB :=
  { ministries := [{ id := "mi1", name := "Choir" }],
    memberMinistries :=
      [{ id := 1, memberId := "p1", ministryId := "mi1", role := "member" }] }

/-- A database holding a single event with no dependent records. -/
def singleEventDB : DB := { events := [{ id := "e1", title := "Picnic" }] }

/-- A full event: capacity one, one active registration. -/
def fullEventDB : DB :=
  { events := [{ id := "e1", title := "Picnic", maxAttendees := some 1 }],
    members := [sampleActiveMember, { id := "m2", name := "Bob" }],
    registrations := [{ id := 1, eventId := "e1", memberId := "m1" }] }

/-- A database holding one user account. -/
def dbWithUser : DB := { users := [{ id := "u1", email := "ann@x.com" }] }

/-- A database with one active member whose age is set. -/
def sampleStatsDB : DB :=
  { members := [{ id := "m1", name := "Ann", age := some 30 }] }

/-- A single sample contribution. -/
def sampleContribution : Contribution :=
  { date := { year := 2024, month := 0, day := 15 }, amount := 100 }

/-- A ministry with an inactive membership row for Ann. -/
def inactiveMembershipDB : DB :=
  { members := [sampleActiveMember],
    ministries := [{ id := "mi1", name := "Choir" }],
    memberMinistries :=
      [{ id := 7, memberId := "m1", ministryId := "mi1", role := "member",
         isActive := false }] }

/-! ### Theorems -/

/-- C4: a request guarded by authorize(allowedRoles) reaches the handler
if and only if it carries an authenticated user whose role is in the
allow-list; with no user the middleware forwards UnauthorizedError (401),
with a role outside the list it forwards ForbiddenError (403); and the
DELETE /events/:id chain lets exactly the users with role SUPER_ADMIN
through. -/
theorem authorize_role_gate :
    (∀ (roles : List String) (user : Option AuthUser),
      authorize roles user = .nextOk ↔ ∃ u, user = some u ∧ u.role ∈ roles) ∧
    (∀ roles : List String,
      authorize roles none = .nextErr (.unauthorized "Authentication required") ∧
      (AppError.unauthorized "Authentication required").status = 401) ∧
    (∀ (roles : List String) (u : AuthUser), u.role ∉ roles →
      authorize roles (some u) = .nextErr (.forbidden "Insufficient permissions") ∧
      (AppError.forbidden "Insufficient permissions").status = 403) ∧
    (∀ user : Option AuthUser,
      deleteEventRouteAllowed user = true ↔
        ∃ u, user = some u ∧ u.role = "SUPER_ADMIN") := by
  refine ⟨?_, ?_, ?_, ?_⟩
  · intro roles user
    cases user with
    | none => simp [authorize]
    | some u =>
      by_cases h : u.role ∈ roles
      · simp [authorize, h]
      · simp [authorize, h]
  · intro roles
    exact ⟨rfl, rfl⟩
  · intro roles u h
    refine ⟨?_, rfl⟩
    simp [authorize, h]
  · intro user
    cases user with
    | none => simp [deleteEventRouteAllowed, authorize, MiddlewareResult.passes]
    | some u =>
      by_cases h : u.role = "SUPER_ADMIN"
      · simp [deleteEventRouteAllowed, authorize, MiddlewareResult.passes,
          eventOrganizerRoles, h]
      · simp [deleteEventRouteAllowed, authorize, MiddlewareResult.passes,
          eventOrganizerRoles, h]

/-- C4 witness: a user whose role is MEMBER is rejected with 403 by
authorize with an allow-list containing only ADMIN. -/
theorem authorize_role_gate_witness :
    authorize ["ADMIN"] (some ⟨"u1", "ann@x.com", "MEMBER", true⟩) =
      .nextErr (.forbidden "Insufficient permissions") :=
  (authorize_role_gate.2.2.1 ["ADMIN"] ⟨"u1", "ann@x.com", "MEMBER", true⟩
    (by decide)).1

/-- C3 counterexample: an error named CastError carries no statusCode,
yet the handler answers 404, not 500 as the claim states for every error
without a statusCode. -/
theorem errorHandler_counterexample :
    (JsError.mk "CastError" "Cast to ObjectId failed" none none []).statusCode
      = none ∧
    errorHandler (JsError.mk "CastError" "Cast to ObjectId failed" none none [])
      = { status := 404, success := false, message := "Resource not found" } ∧
    (404 : Nat) ≠ 500 := by
  refine ⟨rfl, by decide, by decide⟩

/-- C3 (amended): the response of the central error handler always has
success false; each CustomError subclass keeps its constructor status
(ValidationError 400, UnauthorizedError 401, ForbiddenError 403,
NotFoundError 404, ConflictError 409) and its nonempty message; and an
error carrying no statusCode is answered with 500 provided its name and
code match none of the rewrite rules (CastError, Mongoose
ValidationError, duplicate-key code 11000, JsonWebTokenError,
TokenExpiredError, PrismaClientKnownRequestError). -/
theorem errorHandler_spec :
    (∀ err : JsError, (errorHandler err).success = false) ∧
    (∀ msg : String, msg ≠ "" →
      errorHandler (mkValidationError msg) = ⟨400, false, msg⟩ ∧
      errorHandler (mkUnauthorizedError msg) = ⟨401, false, msg⟩ ∧
      errorHandler (mkForbiddenError msg) = ⟨403, false, msg⟩ ∧
      errorHandler (mkNotFoundError msg) = ⟨404, false, msg⟩ ∧
      errorHandler (mkConflictError msg) = ⟨409, false, msg⟩) ∧
    (∀ err : JsError, err.statusCode = none → err.name ∉ rewriteNames →
      err.code ≠ some (.num 11000) → (errorHandler err).status = 500) := by
  refine ⟨fun err => rfl, ?_, ?_⟩
  · intro msg hmsg
    refine ⟨?_, ?_, ?_, ?_, ?_⟩ <;>
      simp [errorHandler, mkValidationError, mkUnauthorizedError,
        mkForbiddenError, mkNotFoundError, mkConflictError,
        jsStatusOr500, jsStringOr, hmsg]
  · intro err h1 h2 h3
    simp only [rewriteNames, List.mem_cons, List.mem_singleton, not_or] at h2
    obtain ⟨n1, n2, n3, n4, n5⟩ := h2
    simp [errorHandler, n1, n2, n3, n4, n5, h1, h3, jsStatusOr500]

/-- C3 witness: a concrete ValidationError is answered with status 400,
success false and its own message. -/
theorem errorHandler_spec_witness :
    errorHandler (mkValidationError "Name is required") =
      ⟨400, false, "Name is required"⟩ :=
  (errorHandler_spec.2.1 "Name is required" (by decide)).1

/-- C2 (code evaluated at the failing input): a members, ministries or
members-via-service list request that supplies no isActive query
parameter filters on isActive = false, because the destructuring default
is the boolean true and a boolean is never strictly equal to the string
true; concretely, a database with one active and one soft-deleted member
answers with exactly the soft-deleted one. -/
theorem defaultListRequestsReturnInactive :
    (∀ db : DB, getMembersRows db none =
      db.members.filter (fun m => m.isActive == false)) ∧
    (∀ db : DB, getMinistriesRows db none =
      db.ministries.filter (fun mi => mi.isActive == false)) ∧
    (∀ db : DB, getAllRows db none =
      db.members.filter (fun m => m.isActive == false)) ∧
    getMembersRows sampleMembersDB none = [sampleInactiveMember] ∧
    sampleActiveMember.isActive = true := by
  refine ⟨fun db => rfl, fun db => rfl, fun db => rfl, by decide, rfl⟩

/-- C10: two validated forgot-password requests, one for an email borne
by an existing user and one for an email borne by no user, receive the
identical HTTP response: 200 with the fixed message; the response does
not depend on the database at all. -/
theorem forgotPassword_uniform_response :
    ∀ (db1 db2 : DB) (e1 e2 t1 t2 : String) (x1 x2 : Int),
      (∃ u ∈ db1.users, u.email = lowerString e1) →
      (∀ u ∈ db2.users, u.email ≠ lowerString e2) →
      (forgotPassword db1 e1 true t1 x1).1 = (forgotPassword db2 e2 true t2 x2).1 ∧
      (forgotPassword db1 e1 true t1 x1).1 =
        { status := 200, success := true,
          message := "If the email exists, a password reset link has been sent" } := by
  have hfix : ∀ (db : DB) (e t : String) (x : Int),
      (forgotPassword db e true t x).1 =
        { status := 200, success := true,
          message := "If the email exists, a password reset link has been sent" } := by
    intro db e t x
    unfold forgotPassword
    cases h : db.users.find? (fun u => u.email == lowerString e) <;> simp [h]
  intro db1 db2 e1 e2 t1 t2 x1 x2 _ _
  rw [hfix, hfix]
  exact ⟨rfl, rfl⟩

/-- C10 witness: concrete databases, one holding the account and one
empty, get the same fixed 200 response. -/
theorem forgotPassword_uniform_response_witness :
    (forgotPassword dbWithUser "ann@x.com" true "tok1" 3600).1 =
      { status := 200, success := true,
        message := "If the email exists, a password reset link has been sent" } :=
  (forgotPassword_uniform_response dbWithUser {} "ann@x.com" "bob@x.com"
    "tok1" "tok2" 3600 0
    (by exact ⟨{ id := "u1", email := "ann@x.com" }, by decide⟩)
    (by intro u hu; simp [DB.users] at hu)).2

/-- C5: creating a member with a (truthy) email an existing member
already bears throws ConflictError and writes nothing; updating a member
to an email borne by another member throws ConflictError and writes
nothing; creating with no email runs no duplicate check and succeeds
against any database. -/
theorem memberEmailUniqueness :
    (∀ (db : DB) (data : MemberData) (newId e : String),
      data.email = some e → e ≠ "" →
      (∃ m ∈ db.members, m.email = some e) →
      memberCreate db data newId =
        (.error (.conflict "Member with this email already exists"), db)) ∧
    (∀ (db : DB) (id : String) (data : MemberData) (existing : Member)
        (e : String),
      db.members.find? (fun m => m.id == id) = some existing →
      data.email = some e → e ≠ "" → some e ≠ existing.email →
      (∃ m ∈ db.members, m.email = some e) →
      memberUpdate db id data =
        (.error (.conflict "Member with this email already exists"), db)) ∧
    (∀ (db : DB) (data : MemberData) (newId : String),
      data.email = none →
      memberCreate db data newId =
        (.ok (newMemberFrom data newId),
         { db with members := db.members ++ [newMemberFrom data newId] })) := by
  refine ⟨?_, ?_, ?_⟩
  · intro db data newId e he hne ⟨m, hm, hme⟩
    have hfind : (db.members.find? (fun x => x.email == data.email)).isSome := by
      rw [List.find?_isSome]
      exact ⟨m, hm, by simp [hme, he]⟩
    unfold memberCreate
    rw [if_pos ⟨by simp [strTruthy, he, hne], hfind⟩]
  · intro db id data existing e hfind he hne hdiff ⟨m, hm, hme⟩
    have hdup : (db.members.find? (fun x => x.email == data.email)).isSome := by
      rw [List.find?_isSome]
      exact ⟨m, hm, by simp [hme, he]⟩
    unfold memberUpdate
    rw [hfind]
    dsimp only
    rw [if_pos ⟨by simp [strTruthy, he, hne], by rw [he]; exact hdiff, hdup⟩]
  · intro db data newId he
    unfold memberCreate
    rw [if_neg]
    intro ⟨h1, _⟩
    rw [he] at h1
    exact absurd h1 (by simp [strTruthy])

/-- C5 witness: a concrete create without email succeeds against the
two-member sample database. -/
theorem memberEmailUniqueness_witness :
    memberCreate sampleMembersDB ({ name := some "Zoe" } : MemberData) "m9" =
      (.ok (newMemberFrom ({ name := some "Zoe" } : MemberData) "m9"),
       { sampleMembersDB with members :=
           sampleMembersDB.members ++
             [newMemberFrom ({ name := some "Zoe" } : MemberData) "m9"] }) :=
  memberEmailUniqueness.2.2 sampleMembersDB ({ name := some "Zoe" } : MemberData)
    "m9" rfl

/-- C1 counterexample: deleting a ministry that has an active member does
not soft-deactivate it as the claim states; the request fails with 400
and the ministry row keeps isActive = true. -/
theorem deleteMinistry_counterexample :
    (deleteMinistry ministryWithMemberDB "mi1").1 =
      .error (400,
        "Cannot delete ministry with active members. Remove all members first.") ∧
    (deleteMinistry ministryWithMemberDB "mi1").2 = ministryWithMemberDB ∧
    ((deleteMinistry ministryWithMemberDB "mi1").2.ministries.map
      Ministry.isActive) = [true] := by
  refine ⟨rfl, rfl, rfl⟩

/-- C1 (amended): deleting an event with at least one active registration
or one attendance record only sets its isActive to false and retains the
row, and with none it removes the row; deleting a ministry with active
members or active events is refused with a 400 error and no write (not
soft-deactivated), and with none the row is removed; deleting a member
never soft-deactivates: rows are only ever removed, and an existing
member is removed. -/
theorem deleteDependentBranching :
    (∀ (db : DB) (id : String) (ev : Event),
      id ≠ "" → db.events.find? (fun e => e.id == id) = some ev →
      (0 < db.registrations.countP (fun r => r.eventId == id && r.isActive) ∨
        0 < db.attendances.countP (fun a => a.eventId == id)) →
      deleteEvent db id =
        (.ok "Event deactivated successfully (has existing registrations/attendance)",
         { db with events :=
            db.events.map (fun e => if e.id == id then { e with isActive := false } else e) }) ∧
      (deleteEvent db id).2.events.length = db.events.length) ∧
    (∀ (db : DB) (id : String) (ev : Event),
      id ≠ "" → db.events.find? (fun e => e.id == id) = some ev →
      db.registrations.countP (fun r => r.eventId == id && r.isActive) = 0 →
      db.attendances.countP (fun a => a.eventId == id) = 0 →
      deleteEvent db id = (.ok "Event deleted successfully",
        { db with events := db.events.filter (fun e => e.id != id) }) ∧
      ∀ e ∈ (deleteEvent db id).2.events, e.id ≠ id) ∧
    (∀ (db : DB) (id : String) (mi : Ministry),
      id ≠ "" → db.ministries.find? (fun x => x.id == id) = some mi →
      0 < db.memberMinistries.countP (fun mm => mm.ministryId == id && mm.isActive) →
      deleteMinistry db id =
        (.error (400,
          "Cannot delete ministry with active members. Remove all members first."),
         db)) ∧
    (∀ (db : DB) (id : String) (mi : Ministry),
      id ≠ "" → db.ministries.find? (fun x => x.id == id) = some mi →
      db.memberMinistries.countP (fun mm => mm.ministryId == id && mm.isActive) = 0 →
      0 < db.events.countP (fun e => e.ministryId == some id && e.isActive) →
      deleteMinistry db id =
        (.error (400,
          "Cannot delete ministry with active events. Delete or reassign events first."),
         db)) ∧
    (∀ (db : DB) (id : String) (mi : Ministry),
      id ≠ "" → db.ministries.find? (fun x => x.id == id) = some mi →
      db.memberMinistries.countP (fun mm => mm.ministryId == id && mm.isActive) = 0 →
      db.events.countP (fun e => e.ministryId == some id && e.isActive) = 0 →
      deleteMinistry db id = (.ok "Ministry deleted successfully",
        { db with ministries := db.ministries.filter (fun x => x.id != id) })) ∧
    (∀ (db : DB) (id : String),
      (∀ m ∈ (memberDelete db id).2.members, m ∈ db.members) ∧
      ((db.members.find? (fun m => m.id == id)).isSome →
        (memberDelete db id).1 = true ∧
        ∀ m ∈ (memberDelete db id).2.members, m.id ≠ id)) := by
  refine ⟨?_, ?_, ?_, ?_, ?_, ?_⟩
  · intro db id ev hid hfind hdep
    have h : deleteEvent db id =
        (.ok "Event deactivated successfully (has existing registrations/attendance)",
         { db with events :=
            db.events.map (fun e => if e.id == id then { e with isActive := false } else e) }) := by
      unfold deleteEvent
      rw [if_neg hid, hfind]
      dsimp only
      rw [if_pos]
      omega
    refine ⟨h, ?_⟩
    rw [h]
    exact List.length_map _ _
  · intro db id ev hid hfind hreg hatt
    have h : deleteEvent db id = (.ok "Event deleted successfully",
        { db with events := db.events.filter (fun e => e.id != id) }) := by
      unfold deleteEvent
      rw [if_neg hid, hfind]
      dsimp only
      rw [if_neg]
      omega
    refine ⟨h, ?_⟩
    rw [h]
    intro e he
    have := List.of_mem_filter he
    simpa using this
  · intro db id mi hid hfind hdep
    unfold deleteMinistry
    rw [if_neg hid, hfind]
    dsimp only
    rw [if_pos hdep]
  · intro db id mi hid hfind hmm hev
    unfold deleteMinistry
    rw [if_neg hid, hfind]
    dsimp only
    rw [if_neg (by omega), if_pos hev]
  · intro db id mi hid hfind hmm hev
    unfold deleteMinistry
    rw [if_neg hid, hfind]
    dsimp only
    rw [if_neg (by omega), if_neg (by omega)]
  · intro db id
    unfold memberDelete
    by_cases h : (db.members.find? (fun m => m.id == id)).isSome
    · rw [if_pos h]
      refine ⟨?_, fun _ => ⟨rfl, ?_⟩⟩
      · intro m hm
        exact List.mem_of_mem_filter hm
      · intro m hm
        have := List.of_mem_filter hm
        simpa using this
    · rw [if_neg h]
      exact ⟨fun m hm => hm, fun hs => absurd hs h⟩

/-- C1 witness: deleting the sample event with no dependent records
removes its row. -/
theorem deleteDependentBranching_witness :
    deleteEvent singleEventDB "e1" = (.ok "Event deleted successfully",
      { singleEventDB with events :=
          singleEventDB.events.filter (fun e => e.id != "e1") }) :=
  (deleteDependentBranching.2.1 singleEventDB "e1"
    { id := "e1", title := "Picnic" } (by decide) (by decide) rfl rfl).1

/-- The forEach loop of getAgeGroupStats counts the first range. -/
theorem foldl_g0to17 (ages : List Int) (acc : AgeGroupAcc) :
    (ages.foldl ageGroupStep acc).g0to17 =
      acc.g0to17 + ages.countP (fun a => decide (a ≤ 17)) := by
  induction ages generalizing acc with
  | nil => simp
  | cons a l ih =>
    rw [List.foldl_cons, ih, List.countP_cons]
    unfold ageGroupStep
    split_ifs <;> (try simp only [decide_eq_true_eq] at *) <;> (try simp) <;> omega

/-- The forEach loop of getAgeGroupStats counts the second range. -/
theorem foldl_g18to25 (ages : List Int) (acc : AgeGroupAcc) :
    (ages.foldl ageGroupStep acc).g18to25 =
      acc.g18to25 + ages.countP (fun a => decide (17 < a ∧ a ≤ 25)) := by
  induction ages generalizing acc with
  | nil => simp
  | cons a l ih =>
    rw [List.foldl_cons, ih, List.countP_cons]
    unfold ageGroupStep
    split_ifs <;> (try simp only [decide_eq_true_eq] at *) <;> (try simp) <;> omega

/-- The forEach loop of getAgeGroupStats counts the third range. -/
theorem foldl_g26to35 (ages : List Int) (acc : AgeGroupAcc) :
    (ages.foldl ageGroupStep acc).g26to35 =
      acc.g26to35 + ages.countP (fun a => decide (25 < a ∧ a ≤ 35)) := by
  induction ages generalizing acc with
  | nil => simp
  | cons a l ih =>
    rw [List.foldl_cons, ih, List.countP_cons]
    unfold ageGroupStep
    split_ifs <;> (try simp only [decide_eq_true_eq] at *) <;> (try simp) <;> omega

/-- The forEach loop of getAgeGroupStats counts the fourth range. -/
theorem foldl_g36to50 (ages : List Int) (acc : AgeGroupAcc) :
    (ages.foldl ageGroupStep acc).g36to50 =
      acc.g36to50 + ages.countP (fun a => decide (35 < a ∧ a ≤ 50)) := by
  induction ages generalizing acc with
  | nil => simp
  | cons a l ih =>
    rw [List.foldl_cons, ih, List.countP_cons]
    unfold ageGroupStep
    split_ifs <;> (try simp only [decide_eq_true_eq] at *) <;> (try simp) <;> omega

/-- The forEach loop of getAgeGroupStats counts the fifth range. -/
theorem foldl_g51to65 (ages : List Int) (acc : AgeGroupAcc) :
    (ages.foldl ageGroupStep acc).g51to65 =
      acc.g51to65 + ages.countP (fun a => decide (50 < a ∧ a ≤ 65)) := by
  induction ages generalizing acc with
  | nil => simp
  | cons a l ih =>
    rw [List.foldl_cons, ih, List.countP_cons]
    unfold ageGroupStep
    split_ifs <;> (try simp only [decide_eq_true_eq] at *) <;> (try simp) <;> omega

/-- The forEach loop of getAgeGroupStats counts the last range. -/
theorem foldl_g65plus (ages : List Int) (acc : AgeGroupAcc) :
    (ages.foldl ageGroupStep acc).g65plus =
      acc.g65plus + ages.countP (fun a => decide (65 < a)) := by
  induction ages generalizing acc with
  | nil => simp
  | cons a l ih =>
    rw [List.foldl_cons, ih, List.countP_cons]
    unfold ageGroupStep
    split_ifs <;> (try simp only [decide_eq_true_eq] at *) <;> (try simp) <;> omega

/-- Each age satisfies exactly one of the six range predicates, so the
six counts sum to the length. -/
theorem ageRangeCountsSum (ages : List Int) :
    ages.countP (fun a => decide (a ≤ 17)) +
    ages.countP (fun a => decide (17 < a ∧ a ≤ 25)) +
    ages.countP (fun a => decide (25 < a ∧ a ≤ 35)) +
    ages.countP (fun a => decide (35 < a ∧ a ≤ 50)) +
    ages.countP (fun a => decide (50 < a ∧ a ≤ 65)) +
    ages.countP (fun a => decide (65 < a)) = ages.length := by
  induction ages with
  | nil => simp
  | cons a l ih =>
    simp only [List.countP_cons, decide_eq_true_eq, List.length_cons]
    split_ifs <;> omega

/-- A filterMap over a list whose members all map to some value keeps the
length. -/
theorem length_filterMap_of_isSome {α β : Type} (l : List α) (f : α → Option β)
    (h : ∀ x ∈ l, (f x).isSome) : (l.filterMap f).length = l.length := by
  induction l with
  | nil => rfl
  | cons x t ih =>
    obtain ⟨b, hb⟩ := Option.isSome_iff_exists.mp (h x (List.mem_cons_self x t))
    rw [List.filterMap_cons, hb]
    simp [ih (fun y hy => h y (List.mem_cons_of_mem x hy))]

/-- C6: the age-group statistic lists exactly the six groups in their
fixed order; the count of each group is the number of active members with
a non-null age falling in the corresponding range; the six counts sum to
the number of active members with a non-null age; and every age falls in
exactly one group label. -/
theorem ageGroupPartition :
    ∀ db : DB,
      ((getAgeGroupStats db).map Prod.fst = ageGroupNames) ∧
      (getAgeGroupStats db =
        [("0-17", (activeAges db).countP (fun a => decide (a ≤ 17))),
         ("18-25", (activeAges db).countP (fun a => decide (17 < a ∧ a ≤ 25))),
         ("26-35", (activeAges db).countP (fun a => decide (25 < a ∧ a ≤ 35))),
         ("36-50", (activeAges db).countP (fun a => decide (35 < a ∧ a ≤ 50))),
         ("51-65", (activeAges db).countP (fun a => decide (50 < a ∧ a ≤ 65))),
         ("65+", (activeAges db).countP (fun a => decide (65 < a)))]) ∧
      (((getAgeGroupStats db).map Prod.snd).sum =
        (db.members.filter (fun m => m.isActive && m.age.isSome)).length) ∧
      (∀ a : Int, ∃! g, g ∈ ageGroupNames ∧ ageBucket a = g) := by
  intro db
  have hstats : getAgeGroupStats db =
      [("0-17", (activeAges db).countP (fun a => decide (a ≤ 17))),
       ("18-25", (activeAges db).countP (fun a => decide (17 < a ∧ a ≤ 25))),
       ("26-35", (activeAges db).countP (fun a => decide (25 < a ∧ a ≤ 35))),
       ("36-50", (activeAges db).countP (fun a => decide (35 < a ∧ a ≤ 50))),
       ("51-65", (activeAges db).countP (fun a => decide (50 < a ∧ a ≤ 65))),
       ("65+", (activeAges db).countP (fun a => decide (65 < a)))] := by
    unfold getAgeGroupStats
    dsimp only
    rw [foldl_g0to17, foldl_g18to25, foldl_g26to35, foldl_g36to50,
      foldl_g51to65, foldl_g65plus]
    simp
  refine ⟨by rw [hstats]; rfl, hstats, ?_, ?_⟩
  · rw [hstats]
    have hlen : (activeAges db).length =
        (db.members.filter (fun m => m.isActive && m.age.isSome)).length := by
      apply length_filterMap_of_isSome
      intro m hm
      have := List.of_mem_filter hm
      exact (Bool.and_eq_true _ _ |>.mp this).2
    rw [← hlen]
    have hsum := ageRangeCountsSum (activeAges db)
    simp only [List.map_cons, List.map_nil, List.sum_cons, List.sum_nil]
    omega
  · intro a
    refine ⟨ageBucket a, ⟨?_, rfl⟩, ?_⟩
    · unfold ageBucket
      split_ifs <;> simp [ageGroupNames]
    · rintro g ⟨-, rfl⟩
      rfl

/-- C6 witness: the single 30-year-old active member of the sample
database is counted once, in the 26-35 group. -/
theorem ageGroupPartition_witness :
    ((getAgeGroupStats sampleStatsDB).map Prod.snd).sum =
      (sampleStatsDB.members.filter
        (fun m => m.isActive && m.age.isSome)).length :=
  (ageGroupPartition sampleStatsDB).2.2.1

/-- Updating rows in place (whatever the row selector) preserves the
uniqueness of (memberId, ministryId) pairs when the update keeps the pair
fields. -/
theorem pairwiseUniquePairs_map (l : List MemberMinistry)
    (g : MemberMinistry → MemberMinistry) (hg : ∀ x, pairOf (g x) = pairOf x)
    (h : pairwiseUniquePairs l) : pairwiseUniquePairs (l.map g) := by
  unfold pairwiseUniquePairs at *
  rw [List.pairwise_map]
  exact h.imp (fun {a b} hab => by rw [hg a, hg b]; exact hab)

/-- Appending a row whose pair occurs nowhere preserves the uniqueness of
(memberId, ministryId) pairs. -/
theorem pairwiseUniquePairs_append (l : List MemberMinistry)
    (x : MemberMinistry) (hx : ∀ y ∈ l, pairOf y ≠ pairOf x)
    (h : pairwiseUniquePairs l) : pairwiseUniquePairs (l ++ [x]) := by
  unfold pairwiseUniquePairs at *
  rw [List.pairwise_append]
  refine ⟨h, List.pairwise_singleton _ _, ?_⟩
  intro a ha b hb
  rw [List.mem_singleton] at hb
  subst hb
  exact hx a ha

/-- A failed composite-key lookup means no row bears the pair. -/
theorem no_pair_of_find?_eq_none (l : List MemberMinistry)
    (memberId ministryId : String)
    (h : l.find? (fun x => x.memberId == memberId && x.ministryId == ministryId)
      = none) :
    ∀ y ∈ l, pairOf y ≠ (memberId, ministryId) := by
  intro y hy hpair
  have := List.find?_eq_none.mp h y hy
  apply this
  unfold pairOf at hpair
  have h1 : y.memberId = memberId := congrArg Prod.fst hpair
  have h2 : y.ministryId = ministryId := congrArg Prod.snd hpair
  simp [h1, h2]

/-- The in-place updates used by the membership operations keep the pair
fields of every row. -/
theorem pairOf_update_reactivate (mmId : Nat) (role : String) :
    ∀ x : MemberMinistry,
      pairOf (if x.id == mmId then { x with isActive := true, role := role } else x)
        = pairOf x := by
  intro x
  split <;> rfl

/-- The in-place deactivation keeps the pair fields of every row. -/
theorem pairOf_update_deactivate (mmId : Nat) :
    ∀ x : MemberMinistry,
      pairOf (if x.id == mmId then { x with isActive := false } else x)
        = pairOf x := by
  intro x
  split <;> rfl

/-- MemberService.addToMinistry preserves pair uniqueness. -/
theorem addToMinistry_inv (db : DB) (memberId ministryId role : String)
    (h : pairwiseUniquePairs db.memberMinistries) :
    pairwiseUniquePairs
      (addToMinistry db memberId ministryId role).2.memberMinistries := by
  unfold addToMinistry
  split
  · exact h
  · split
    · exact h
    · split
      · rename_i mm heq
        split
        · exact h
        · exact pairwiseUniquePairs_map _ _ (pairOf_update_reactivate mm.id role) h
      · rename_i heq
        exact pairwiseUniquePairs_append _ _
          (no_pair_of_find?_eq_none _ _ _ heq) h

/-- MemberService.removeFromMinistry preserves pair uniqueness. -/
theorem removeFromMinistry_inv (db : DB) (memberId ministryId : String)
    (h : pairwiseUniquePairs db.memberMinistries) :
    pairwiseUniquePairs
      (removeFromMinistry db memberId ministryId).2.memberMinistries := by
  unfold removeFromMinistry
  split
  · exact h
  · rename_i mm heq
    exact pairwiseUniquePairs_map _ _ (pairOf_update_deactivate mm.id) h

/-- MinistryController.addMemberToMinistry preserves pair uniqueness. -/
theorem addMemberToMinistry_inv (db : DB) (ministryId memberId role : String)
    (h : pairwiseUniquePairs db.memberMinistries) :
    pairwiseUniquePairs
      (addMemberToMinistry db ministryId memberId role).2.memberMinistries := by
  unfold addMemberToMinistry
  split
  · exact h
  · split
    · exact h
    · split
      · exact h
      · split
        · rename_i mm heq
          split
          · exact h
          · exact pairwiseUniquePairs_map _ _
              (pairOf_update_reactivate mm.id role) h
        · rename_i heq
          exact pairwiseUniquePairs_append _ _
            (no_pair_of_find?_eq_none _ _ _ heq) h

/-- MinistryController.removeMemberFromMinistry preserves pair
uniqueness. -/
theorem removeMemberFromMinistry_inv (db : DB) (ministryId memberId : String)
    (h : pairwiseUniquePairs db.memberMinistries) :
    pairwiseUniquePairs
      (removeMemberFromMinistry db ministryId memberId).2.memberMinistries := by
  unfold removeMemberFromMinistry
  split
  · exact h
  · split
    · exact h
    · rename_i mm heq
      split
      · exact h
      · exact pairwiseUniquePairs_map _ _ (pairOf_update_deactivate mm.id) h

/-- C9: adding a member whose membership row exists and is active answers
Conflict and writes nothing (service and controller versions); adding one
whose row exists but is inactive updates that row in place instead of
creating a second row; removing a member only deactivates the existing
row, never deleting it; and all four membership operations preserve the
invariant that each (memberId, ministryId) pair has at most one row. -/
theorem ministryMembershipUnique :
    (∀ (db : DB) (memberId ministryId role : String) (mem : Member)
        (mi : Ministry) (mm : MemberMinistry),
      db.members.find? (fun m => m.id == memberId) = some mem →
      db.ministries.find? (fun x => x.id == ministryId) = some mi →
      db.memberMinistries.find?
        (fun x => x.memberId == memberId && x.ministryId == ministryId) = some mm →
      mm.isActive = true →
      addToMinistry db memberId ministryId role =
        (.error (.conflict "Member is already part of this ministry"), db)) ∧
    (∀ (db : DB) (memberId ministryId role : String) (mem : Member)
        (mi : Ministry) (mm : MemberMinistry),
      db.members.find? (fun m => m.id == memberId) = some mem →
      db.ministries.find? (fun x => x.id == ministryId) = some mi →
      db.memberMinistries.find?
        (fun x => x.memberId == memberId && x.ministryId == ministryId) = some mm →
      mm.isActive = false →
      addToMinistry db memberId ministryId role =
        (.ok (), { db with memberMinistries :=
          db.memberMinistries.map (fun x => if x.id == mm.id then { x with isActive := true, role := role } else x) }) ∧
      (addToMinistry db memberId ministryId role).2.memberMinistries.length
        = db.memberMinistries.length) ∧
    (∀ (db : DB) (memberId ministryId : String) (mm : MemberMinistry),
      db.memberMinistries.find?
        (fun x => x.memberId == memberId && x.ministryId == ministryId) = some mm →
      removeFromMinistry db memberId ministryId =
        (.ok (), { db with memberMinistries :=
          db.memberMinistries.map (fun x => if x.id == mm.id then { x with isActive := false } else x) }) ∧
      (removeFromMinistry db memberId ministryId).2.memberMinistries.length
        = db.memberMinistries.length) ∧
    (∀ (db : DB) (ministryId memberId role : String) (mi : Ministry)
        (mem : Member) (mm : MemberMinistry),
      ministryId ≠ "" → memberId ≠ "" →
      db.ministries.find? (fun x => x.id == ministryId) = some mi →
      db.members.find? (fun m => m.id == memberId) = some mem →
      db.memberMinistries.find?
        (fun x => x.memberId == memberId && x.ministryId == ministryId) = some mm →
      mm.isActive = true →
      addMemberToMinistry db ministryId memberId role =
        (.error (409, "Member is already active in this ministry"), db)) ∧
    (∀ (db : DB) (ministryId memberId : String) (mm : MemberMinistry),
      ministryId ≠ "" → memberId ≠ "" →
      db.memberMinistries.find?
        (fun x => x.memberId == memberId && x.ministryId == ministryId) = some mm →
      mm.isActive = true →
      removeMemberFromMinistry db ministryId memberId =
        (.ok (), { db with memberMinistries :=
          db.memberMinistries.map (fun x => if x.id == mm.id then { x with isActive := false } else x) }) ∧
      (removeMemberFromMinistry db ministryId memberId).2.memberMinistries.length
        = db.memberMinistries.length) ∧
    (∀ (db : DB) (a b r : String), pairwiseUniquePairs db.memberMinistries →
      pairwiseUniquePairs (addToMinistry db a b r).2.memberMinistries ∧
      pairwiseUniquePairs (removeFromMinistry db a b).2.memberMinistries ∧
      pairwiseUniquePairs (addMemberToMinistry db a b r).2.memberMinistries ∧
      pairwiseUniquePairs (removeMemberFromMinistry db a b).2.memberMinistries) := by
  refine ⟨?_, ?_, ?_, ?_, ?_, ?_⟩
  · intro db memberId ministryId role mem mi mm hmem hmi hpair hact
    simp [addToMinistry, hmem, hmi, hpair, hact]
  · intro db memberId ministryId role mem mi mm hmem hmi hpair hact
    have heq : addToMinistry db memberId ministryId role =
        (.ok (), { db with memberMinistries :=
          db.memberMinistries.map (fun x => if x.id == mm.id then { x with isActive := true, role := role } else x) }) := by
      simp [addToMinistry, hmem, hmi, hpair, hact]
    exact ⟨heq, by rw [heq]; exact List.length_map _ _⟩
  · intro db memberId ministryId mm hpair
    have heq : removeFromMinistry db memberId ministryId =
        (.ok (), { db with memberMinistries :=
          db.memberMinistries.map (fun x => if x.id == mm.id then { x with isActive := false } else x) }) := by
      simp [removeFromMinistry, hpair]
    exact ⟨heq, by rw [heq]; exact List.length_map _ _⟩
  · intro db ministryId memberId role mi mem mm hmin hmid hmi hmem hpair hact
    simp [addMemberToMinistry, hmin, hmid, hmi, hmem, hpair, hact]
  · intro db ministryId memberId mm hmin hmid hpair hact
    have heq : removeMemberFromMinistry db ministryId memberId =
        (.ok (), { db with memberMinistries :=
          db.memberMinistries.map (fun x => if x.id == mm.id then { x with isActive := false } else x) }) := by
      simp [removeMemberFromMinistry, hmin, hmid, hpair, hact]
    exact ⟨heq, by rw [heq]; exact List.length_map _ _⟩
  · intro db a b r h
    exact ⟨addToMinistry_inv db a b r h, removeFromMinistry_inv db a b h,
      addMemberToMinistry_inv db a b r h, removeMemberFromMinistry_inv db a b h⟩

/-- C9 witness: reactivating the inactive sample membership keeps the
pair-uniqueness invariant. -/
theorem ministryMembershipUnique_witness :
    pairwiseUniquePairs
      (addToMinistry inactiveMembershipDB "m1" "mi1" "leader").2.memberMinistries :=
  (ministryMembershipUnique.2.2.2.2.2 inactiveMembershipDB "m1" "mi1" "leader"
    (by unfold pairwiseUniquePairs; exact List.pairwise_singleton _ _)).1


/-- A map that fixes every element of a list is the identity. -/
theorem map_id_of_forall {α : Type} (l : List α) (g : α → α)
    (h : ∀ x ∈ l, g x = x) : l.map g = l := by
  induction l with
  | nil => rfl
  | cons x t ih =>
    rw [List.map_cons, h x (List.mem_cons_self x t),
      ih (fun y hy => h y (List.mem_cons_of_mem x hy))]


/-- Updating the single row bearing a primary key (the registration ids
are Nodup) changes a countP by exactly the difference the updated row
contributes. -/
theorem countP_map_update (l : List EventRegistration)
    (hnd : (l.map (fun r => r.id)).Nodup) (r : EventRegistration) (hr : r ∈ l)
    (f : EventRegistration → EventRegistration) (p : EventRegistration → Bool) :
    (l.map (fun x => if x.id == r.id then f x else x)).countP p
      + (if p r then 1 else 0)
      = l.countP p + (if p (f r) then 1 else 0) := by
  induction l with
  | nil => cases hr
  | cons x t ih =>
    rw [List.map_cons, List.countP_cons, List.countP_cons]
    rw [List.map_cons, List.nodup_cons] at hnd
    rcases List.mem_cons.mp hr with hxr | hrt
    · subst hxr
      have hhead : (if r.id == r.id then f r else r) = f r := by simp
      have htail : t.map (fun y => if y.id == r.id then f y else y) = t := by
        apply map_id_of_forall
        intro y hy
        have hne : (y.id == r.id) = false := by
          rw [beq_eq_false_iff_ne]
          intro hcontra
          exact hnd.1 (hcontra ▸ List.mem_map_of_mem (fun z => z.id) hy)
        simp [hne]
      rw [hhead, htail]
      omega
    · have hxne : (x.id == r.id) = false := by
        rw [beq_eq_false_iff_ne]
        intro hcontra
        exact hnd.1 (hcontra ▸ List.mem_map_of_mem (fun z => z.id) hrt)
      have hhead : (if x.id == r.id then f x else x) = x := by simp [hxne]
      rw [hhead]
      have := ih hnd.2 hrt
      omega


/-- Every element of a list of naturals is bounded by its foldr max. -/
theorem mem_le_foldr_max (l : List Nat) (n : Nat) (h : n ∈ l) :
    n ≤ l.foldr max 0 := by
  induction l with
  | nil => cases h
  | cons x t ih =>
    rcases List.mem_cons.mp h with rfl | ht
    · exact le_max_left _ _
    · exact le_trans (ih ht) (le_max_right _ _)


/-- The auto-increment id is fresh: no existing registration bears it. -/
theorem nextRegistrationId_fresh (db : DB) :
    ∀ r ∈ db.registrations, r.id ≠ nextRegistrationId db := by
  intro r hr
  have := mem_le_foldr_max (db.registrations.map (fun x => x.id)) r.id
    (List.mem_map_of_mem (fun x => x.id) hr)
  unfold nextRegistrationId
  omega


/-- registerForEvent never writes the events table. -/
theorem registerForEvent_events (db : DB) (now : Int) (eid mid : String)
    (notes : Option String) :
    (registerForEvent db now eid mid notes).2.events = db.events := by
  unfold registerForEvent
  repeat' (first | rfl | split | dsimp only)


/-- cancelRegistration never writes the events table. -/
theorem cancelRegistration_events (db : DB) (eid mid : String) :
    (cancelRegistration db eid mid).2.events = db.events := by
  unfold cancelRegistration
  repeat' (first | rfl | split)


/-- registerForEvent keeps the registration primary keys distinct. -/
theorem registerForEvent_ids_nodup (db : DB) (now : Int) (eid mid : String)
    (notes : Option String)
    (h : (db.registrations.map (fun r => r.id)).Nodup) :
    (((registerForEvent db now eid mid notes).2.registrations.map
      (fun r => r.id)).Nodup) := by
  unfold registerForEvent
  split
  · exact h
  · split
    · exact h
    · try dsimp only
      split
      · exact h
      · try dsimp only
        split
        · exact h
        · split
          · exact h
          · split
            · rename_i r hr
              split
              · exact h
              · try dsimp only
                rw [List.map_map]
                have hcomp : ((fun x : EventRegistration => x.id) ∘
                    (fun x : EventRegistration => if x.id == r.id then { x with isActive := true, notes := notes } else x)) =
                    fun x : EventRegistration => x.id := by
                  funext x
                  simp only [Function.comp_apply]
                  split <;> rfl
                rw [hcomp]
                exact h
            · try dsimp only
              rw [List.map_append, List.nodup_append]
              refine ⟨h, List.nodup_singleton _, ?_⟩
              intro a ha hb
              simp only [List.map_cons, List.map_nil, List.mem_singleton] at hb
              subst hb
              obtain ⟨r, hrmem, hrid⟩ := List.mem_map.mp ha
              exact nextRegistrationId_fresh db r hrmem hrid


/-- cancelRegistration keeps the registration primary keys distinct. -/
theorem cancelRegistration_ids_nodup (db : DB) (eid mid : String)
    (h : (db.registrations.map (fun r => r.id)).Nodup) :
    (((cancelRegistration db eid mid).2.registrations.map
      (fun r => r.id)).Nodup) := by
  unfold cancelRegistration
  split
  · exact h
  · split
    · exact h
    · rename_i r hr
      split
      · exact h
      · dsimp only
        rw [List.map_map]
        have hcomp : ((fun x : EventRegistration => x.id) ∘
            (fun x : EventRegistration => if x.id == r.id then { x with isActive := false } else x)) =
            fun x : EventRegistration => x.id := by
          funext x
          simp only [Function.comp_apply]
          split <;> rfl
        rw [hcomp]
        exact h


/-- Cancelling a registration never raises an active-registration count. -/
theorem cancelRegistration_count_le (db : DB) (eid mid targetEid : String)
    (m : Nat) (hnd : (db.registrations.map (fun r => r.id)).Nodup)
    (hle : activeRegCount db targetEid ≤ m) :
    activeRegCount (cancelRegistration db eid mid).2 targetEid ≤ m := by
  unfold cancelRegistration
  split
  · exact hle
  · split
    · exact hle
    · rename_i r hr
      split
      · exact hle
      · dsimp only
        unfold activeRegCount at *
        dsimp only
        have hkey := countP_map_update db.registrations hnd r
          (List.mem_of_find?_eq_some hr)
          (fun x => { x with isActive := false })
          (fun x => x.eventId == targetEid && x.isActive)
        simp only [Bool.and_false] at hkey
        rw [show (if (false = true) then 1 else 0) = (0 : Nat) from rfl] at hkey
        omega


/-- One registration request keeps the active-registration count of any
event with a positive capacity bound m below or at m, provided it was
there before: a full event rejects, and a successful registration was
admitted only with room left. -/
theorem registerForEvent_count_le (db : DB) (now : Int) (eid mid : String)
    (notes : Option String) (targetEid : String) (ev : Event) (m : Nat)
    (hev : db.events.find? (fun e => e.id == targetEid && e.isActive) = some ev)
    (hmax : ev.maxAttendees = some m) (hm : 0 < m)
    (hnd : (db.registrations.map (fun r => r.id)).Nodup)
    (hle : activeRegCount db targetEid ≤ m) :
    activeRegCount (registerForEvent db now eid mid notes).2 targetEid ≤ m := by
  unfold registerForEvent
  split
  · exact hle
  · split
    · exact hle
    · rename_i ev' hev'
      try dsimp only
      split
      · exact hle
      · try dsimp only
        split
        · exact hle
        · rename_i hnotfull
          split
          · exact hle
          · split
            · rename_i r hr
              split
              · exact hle
              · rename_i hract
                try dsimp only
                unfold activeRegCount at *
                try dsimp only
                have hkey := countP_map_update db.registrations hnd r
                  (List.mem_of_find?_eq_some hr)
                  (fun x => { x with isActive := true, notes := notes })
                  (fun x => x.eventId == targetEid && x.isActive)
                have hpred := List.find?_some hr
                rw [Bool.and_eq_true, beq_iff_eq, beq_iff_eq] at hpred
                have hractF : r.isActive = false := by
                  cases hcase : r.isActive
                  · rfl
                  · exact absurd hcase hract
                by_cases hcase : r.eventId = targetEid
                · have heid : eid = targetEid := hpred.1 ▸ hcase
                  subst heid
                  rw [hev] at hev'
                  obtain rfl := Option.some.inj hev'
                  rw [hmax] at hnotfull
                  have hlt : db.registrations.countP
                      (fun x => x.eventId == eid && x.isActive) < m := by
                    by_contra hge
                    apply hnotfull
                    rw [Bool.and_eq_true, decide_eq_true_eq, decide_eq_true_eq]
                    exact ⟨hm, le_of_not_lt hge⟩
                  have e1 : (r.eventId == eid && r.isActive) = false := by
                    rw [hractF, Bool.and_false]
                  have e2 : (({ r with isActive := true, notes := notes }
                      : EventRegistration).eventId == eid &&
                      ({ r with isActive := true, notes := notes }
                      : EventRegistration).isActive) = true := by
                    simp [hcase]
                  rw [e1, e2] at hkey
                  rw [show (if (false = true) then 1 else 0) = (0 : Nat) from rfl,
                    show (if (true = true) then 1 else 0) = (1 : Nat) from rfl] at hkey
                  omega
                · have hpr : (r.eventId == targetEid) = false :=
                    beq_eq_false_iff_ne.mpr hcase
                  have e1 : (r.eventId == targetEid && r.isActive) = false := by
                    rw [hractF, Bool.and_false]
                  have e2 : (({ r with isActive := true, notes := notes }
                      : EventRegistration).eventId == targetEid &&
                      ({ r with isActive := true, notes := notes }
                      : EventRegistration).isActive) = false := by
                    simp [hpr]
                  rw [e1, e2] at hkey
                  rw [show (if (false = true) then 1 else 0) = (0 : Nat) from rfl] at hkey
                  omega
            · rename_i hr
              try dsimp only
              unfold activeRegCount at *
              try dsimp only
              rw [List.countP_append]
              by_cases hcase : eid = targetEid
              · subst hcase
                rw [hev] at hev'
                obtain rfl := Option.some.inj hev'
                rw [hmax] at hnotfull
                have hlt : db.registrations.countP
                    (fun x => x.eventId == eid && x.isActive) < m := by
                  by_contra hge
                  apply hnotfull
                  rw [Bool.and_eq_true, decide_eq_true_eq, decide_eq_true_eq]
                  exact ⟨hm, le_of_not_lt hge⟩
                simp
                omega
              · have : ((db.registrations ++
                    [{ id := nextRegistrationId db, eventId := eid,
                       memberId := mid, notes := notes, isActive := true }]) : List EventRegistration) = _ := rfl
                simp [List.countP_cons, beq_eq_false_iff_ne.mpr hcase]
                omega


/-- Under sequential execution of registration and cancellation requests
the active-registration count of an event with capacity m never exceeds
m once it is within bound. -/
theorem regTrace_invariant (ops : List RegOp) (db : DB) (eid : String)
    (ev : Event) (m : Nat)
    (hev : db.events.find? (fun e => e.id == eid && e.isActive) = some ev)
    (hmax : ev.maxAttendees = some m) (hm : 0 < m)
    (hnd : (db.registrations.map (fun r => r.id)).Nodup)
    (hle : activeRegCount db eid ≤ m) :
    activeRegCount (ops.foldl applyRegOp db) eid ≤ m := by
  induction ops generalizing db with
  | nil => exact hle
  | cons op t ih =>
    rw [List.foldl_cons]
    cases op with
    | register now eid' mid' notes' =>
      apply ih
      · rw [show (applyRegOp db (RegOp.register now eid' mid' notes')).events
            = (registerForEvent db now eid' mid' notes').2.events from rfl,
          registerForEvent_events]
        exact hev
      · exact registerForEvent_ids_nodup db now eid' mid' notes' hnd
      · exact registerForEvent_count_le db now eid' mid' notes' eid ev m
          hev hmax hm hnd hle
    | cancel eid' mid' =>
      apply ih
      · rw [show (applyRegOp db (RegOp.cancel eid' mid')).events
            = (cancelRegistration db eid' mid').2.events from rfl,
          cancelRegistration_events]
        exact hev
      · exact cancelRegistration_ids_nodup db eid' mid' hnd
      · exact cancelRegistration_count_le db eid' mid' eid m hnd hle


/-- C8: a registration request for an active event with maxAttendees set
(to a positive m, as route validation guarantees) and at least m active
registrations fails with 400 Event is full and writes nothing; and under
sequential execution of registration and cancellation requests the
active-registration count of such an event never exceeds m. -/
theorem eventCapacity :
    (∀ (db : DB) (now : Int) (eid mid : String) (notes : Option String)
        (ev : Event) (m : Nat),
      eid ≠ "" → mid ≠ "" →
      db.events.find? (fun e => e.id == eid && e.isActive) = some ev →
      (ev.registrationRequired &&
        (match ev.registrationDeadline with
         | some d => decide (now > d)
         | none => false)) = false →
      ev.maxAttendees = some m → 0 < m →
      m ≤ activeRegCount db eid →
      registerForEvent db now eid mid notes =
        (.error (400, "Event is full"), db)) ∧
    (∀ (ops : List RegOp) (db : DB) (eid : String) (ev : Event) (m : Nat),
      db.events.find? (fun e => e.id == eid && e.isActive) = some ev →
      ev.maxAttendees = some m → 0 < m →
      (db.registrations.map (fun r => r.id)).Nodup →
      activeRegCount db eid ≤ m →
      activeRegCount (ops.foldl applyRegOp db) eid ≤ m) := by
  constructor
  · intro db now eid mid notes ev m h1 h2 hev hdl hmax hm hge
    unfold registerForEvent
    rw [if_neg (by simp [h1, h2])]
    rw [hev]
    dsimp only
    rw [hdl]
    rw [if_neg (by simp)]
    rw [hmax]
    dsimp only
    rw [if_pos]
    rw [Bool.and_eq_true, decide_eq_true_eq, decide_eq_true_eq]
    exact ⟨hm, hge⟩
  · exact regTrace_invariant

/-- C8 witness: the sample event of capacity one with one active
registration rejects a further registration and leaves the database
unchanged. -/
theorem eventCapacity_witness :
    registerForEvent fullEventDB 0 "e1" "m2" none =
      (.error (400, "Event is full"), fullEventDB) :=
  eventCapacity.1 fullEventDB 0 "e1" "m2" none
    { id := "e1", title := "Picnic", maxAttendees := some 1 } 1
    (by decide) (by decide) rfl rfl rfl (by decide) (by decide)


/-- A period with no contribution sums to zero. -/
theorem periodSum_eq_zero (t : List Contribution) (g key : String)
    (h : periodCount t g key = 0) : periodSum t g key = 0 := by
  unfold periodCount at h
  unfold periodSum
  rw [List.countP_eq_zero] at h
  rw [List.filter_eq_nil_iff.mpr h]
  rfl


/-- No period has an aggregate over an empty contribution list. -/
theorem groupOf_nil (g key : String) : groupOf [] g key = none := rfl


/-- Merging from the left with no aggregate is the identity. -/
theorem mergeOpt_none_left (y : Option (ℚ × Nat)) : mergeOpt none y = y := by
  cases y <;> rfl


/-- Aggregate merging is associative. -/
theorem mergeOpt_assoc (x y z : Option (ℚ × Nat)) :
    mergeOpt (mergeOpt x y) z = mergeOpt x (mergeOpt y z) := by
  rcases x with _ | ⟨a, c⟩ <;> rcases y with _ | ⟨b, d⟩ <;>
    rcases z with _ | ⟨e, f⟩ <;> simp [mergeOpt, add_assoc]


/-- Unfolding equation of lookupPeriod on a cons cell. -/
theorem lookupPeriod_cons (k : String) (a : ℚ) (c : Nat)
    (rest : List (String × ℚ × Nat)) (key : String) :
    lookupPeriod ((k, a, c) :: rest) key =
      if k = key then some (a, c) else lookupPeriod rest key := rfl


/-- Unfolding equation of bumpPeriod on a cons cell. -/
theorem bumpPeriod_cons (k : String) (a : ℚ) (c : Nat)
    (rest : List (String × ℚ × Nat)) (key : String) (amt : ℚ) :
    bumpPeriod ((k, a, c) :: rest) key amt =
      if k = key then (k, a + amt, c + 1) :: rest
      else (k, a, c) :: bumpPeriod rest key amt := rfl


/-- The aggregate of a period over a cons: the head contributes exactly
when its key matches. -/
theorem groupOf_cons (c : Contribution) (t : List Contribution) (g key : String) :
    groupOf (c :: t) g key =
      if periodKey g c.date = key then
        mergeOpt (some (c.amount, 1)) (groupOf t g key)
      else groupOf t g key := by
  by_cases h : periodKey g c.date = key
  · rw [if_pos h]
    have hb : (periodKey g c.date == key) = true := beq_iff_eq.mpr h
    unfold groupOf periodCount periodSum
    rw [List.countP_cons, List.filter_cons, hb]
    simp only [if_true]
    by_cases hz : t.countP (fun x => periodKey g x.date == key) = 0
    · rw [if_pos hz]
      have hs : periodSum t g key = 0 := periodSum_eq_zero t g key hz
      unfold periodSum at hs
      rw [if_neg (by omega)]
      simp [mergeOpt, hz, hs]
    · rw [if_neg hz, if_neg (by omega)]
      simp only [mergeOpt, Option.some.injEq, Prod.mk.injEq, List.map_cons,
        List.sum_cons]
      exact ⟨trivial, by omega⟩
  · rw [if_neg h]
    have hb : (periodKey g c.date == key) = false := beq_eq_false_iff_ne.mpr h
    unfold groupOf periodCount periodSum
    rw [List.countP_cons, List.filter_cons, hb]
    simp only [Bool.false_eq_true, if_false]
    rfl


/-- Bumping a key only changes the lookup of that key, by adding the
bumped amount and one to the count. -/
theorem lookup_bump (acc : List (String × ℚ × Nat)) (key : String) (amt : ℚ)
    (key' : String) :
    lookupPeriod (bumpPeriod acc key amt) key' =
      if key' = key then mergeOpt (lookupPeriod acc key') (some (amt, 1))
      else lookupPeriod acc key' := by
  induction acc with
  | nil =>
    rw [show bumpPeriod [] key amt = [(key, amt, 1)] from rfl,
      lookupPeriod_cons]
    by_cases h : key' = key
    · rw [if_pos h.symm, if_pos h]
      rfl
    · rw [if_neg (fun hc => h hc.symm), if_neg h]
  | cons e rest ih =>
    obtain ⟨k, a, c⟩ := e
    rw [bumpPeriod_cons]
    by_cases hk : k = key
    · rw [if_pos hk, lookupPeriod_cons, lookupPeriod_cons]
      by_cases h' : k = key'
      · rw [if_pos h', if_pos h', if_pos (h'.symm.trans hk)]
        rfl
      · rw [if_neg h', if_neg h', if_neg (fun hc => h' (hk.trans hc.symm))]
    · rw [if_neg hk, lookupPeriod_cons, lookupPeriod_cons]
      by_cases h' : k = key'
      · rw [if_pos h', if_pos h', if_neg (fun hc : key' = key => hk (h'.trans hc))]
      · rw [if_neg h', if_neg h']
        exact ih


/-- Merging from the right with no aggregate is the identity. -/
theorem mergeOpt_none_right (x : Option (ℚ × Nat)) : mergeOpt x none = x := by
  rcases x with _ | ⟨a, c⟩ <;> rfl


/-- The groupedStats fold computes per key the merge of what the
accumulator already held with the aggregate of the processed list. -/
theorem fold_lookup (g : String) (l : List Contribution) :
    ∀ (acc : List (String × ℚ × Nat)) (key : String),
      lookupPeriod
        (l.foldl (fun acc c => bumpPeriod acc (periodKey g c.date) c.amount) acc)
        key
      = mergeOpt (lookupPeriod acc key) (groupOf l g key) := by
  induction l with
  | nil =>
    intro acc key
    rw [List.foldl_nil, groupOf_nil, mergeOpt_none_right]
  | cons c t ih =>
    intro acc key
    rw [List.foldl_cons, ih, lookup_bump, groupOf_cons]
    by_cases h : key = periodKey g c.date
    · rw [if_pos h, if_pos h.symm, mergeOpt_assoc]
    · rw [if_neg h, if_neg (fun hc => h hc.symm)]


/-- Bumping introduces no key other than the bumped one. -/
theorem mem_keys_bump (acc : List (String × ℚ × Nat)) (key : String) (amt : ℚ)
    (x : String) (hx : x ∈ (bumpPeriod acc key amt).map Prod.fst) :
    x ∈ acc.map Prod.fst ∨ x = key := by
  induction acc with
  | nil =>
    right
    rw [show bumpPeriod [] key amt = [(key, amt, 1)] from rfl] at hx
    simpa using hx
  | cons e rest ih =>
    obtain ⟨k, a, c⟩ := e
    rw [bumpPeriod_cons] at hx
    by_cases hk : k = key
    · rw [if_pos hk] at hx
      left
      simpa using hx
    · rw [if_neg hk] at hx
      rw [List.map_cons, List.mem_cons] at hx
      rcases hx with hx | hx
      · exact Or.inl (by simp [hx])
      · rcases ih hx with h | h
        · exact Or.inl (by simp; right; simpa using h)
        · exact Or.inr h


/-- Bumping keeps the keys of the groupedStats object distinct. -/
theorem keys_nodup_bump (acc : List (String × ℚ × Nat)) (key : String)
    (amt : ℚ) (h : (acc.map Prod.fst).Nodup) :
    ((bumpPeriod acc key amt).map Prod.fst).Nodup := by
  induction acc with
  | nil =>
    rw [show bumpPeriod [] key amt = [(key, amt, 1)] from rfl]
    simp
  | cons e rest ih =>
    obtain ⟨k, a, c⟩ := e
    rw [List.map_cons, List.nodup_cons] at h
    rw [bumpPeriod_cons]
    by_cases hk : k = key
    · rw [if_pos hk, List.map_cons, List.nodup_cons]
      exact ⟨h.1, h.2⟩
    · rw [if_neg hk, List.map_cons, List.nodup_cons]
      refine ⟨?_, ih h.2⟩
      intro hc
      rcases mem_keys_bump rest key amt k hc with hmem | hkey
      · exact h.1 hmem
      · exact hk hkey


/-- The groupedStats fold keeps its keys distinct. -/
theorem keys_nodup_fold (g : String) (l : List Contribution) :
    ∀ acc : List (String × ℚ × Nat), (acc.map Prod.fst).Nodup →
      ((l.foldl (fun acc c => bumpPeriod acc (periodKey g c.date) c.amount)
        acc).map Prod.fst).Nodup := by
  induction l with
  | nil => exact fun acc h => h
  | cons c t ih =>
    intro acc h
    rw [List.foldl_cons]
    exact ih _ (keys_nodup_bump acc (periodKey g c.date) c.amount h)


/-- With distinct keys, every entry is found by looking up its key. -/
theorem lookup_eq_of_mem (acc : List (String × ℚ × Nat))
    (hnd : (acc.map Prod.fst).Nodup) :
    ∀ e ∈ acc, lookupPeriod acc e.1 = some e.2 := by
  induction acc with
  | nil => intro e he; cases he
  | cons p rest ih =>
    obtain ⟨k, a, c⟩ := p
    rw [List.map_cons, List.nodup_cons] at hnd
    intro e he
    rw [List.mem_cons] at he
    rcases he with rfl | he
    · rw [lookupPeriod_cons, if_pos rfl]
    · rw [lookupPeriod_cons]
      have hke : k ≠ e.1 := by
        intro hc
        apply hnd.1
        rw [hc]
        exact List.mem_map.mpr ⟨e, he, rfl⟩
      rw [if_neg hke]
      exact ih hnd.2 e he


/-- A successful lookup means the key occurs in the object. -/
theorem key_mem_of_lookup_some (acc : List (String × ℚ × Nat)) (key : String)
    (v : ℚ × Nat) (h : lookupPeriod acc key = some v) :
    key ∈ acc.map Prod.fst := by
  induction acc with
  | nil => cases h
  | cons p rest ih =>
    obtain ⟨k, a, c⟩ := p
    rw [lookupPeriod_cons] at h
    by_cases hk : k = key
    · simp [hk]
    · rw [if_neg hk] at h
      rw [List.map_cons, List.mem_cons]
      exact Or.inr (ih h)


/-- C7: the reported periods are pairwise distinct; every reported
period carries the exact sum, count (at least one) and average
(sum / count) of the contributions whose period key is that period;
every contribution of the input falls under exactly one reported period
(its key is reported and the periods are distinct); and the period key
is year-month for month, year-quarter with quarter = floor(month/3) + 1
for quarter, the year for year, and the ISO calendar day otherwise. -/
theorem periodicStats_spec :
    ∀ (contribs : List Contribution) (groupBy : String),
      (((getPeriodicStats contribs groupBy).map PeriodStat.period).Nodup) ∧
      (∀ st ∈ getPeriodicStats contribs groupBy,
        st.totalAmount = periodSum contribs groupBy st.period ∧
        st.count = periodCount contribs groupBy st.period ∧
        1 ≤ st.count ∧
        st.averageAmount = st.totalAmount / (st.count : ℚ)) ∧
      (∀ c ∈ contribs,
        periodKey groupBy c.date ∈
          (getPeriodicStats contribs groupBy).map PeriodStat.period) ∧
      (∀ d : SimpleDate,
        periodKey "month" d = toString d.year ++ "-" ++ pad2 (d.month + 1) ∧
        periodKey "quarter" d =
          toString d.year ++ "-Q" ++ toString (d.month / 3 + 1) ∧
        periodKey "year" d = toString d.year) ∧
      (∀ (g : String) (d : SimpleDate),
        g ≠ "month" → g ≠ "quarter" → g ≠ "year" →
        periodKey g d =
          pad4 d.year ++ "-" ++ pad2 (d.month + 1) ++ "-" ++ pad2 d.day) := by
  intro contribs g
  have hkeys : ((contribs.foldl
      (fun acc c => bumpPeriod acc (periodKey g c.date) c.amount) []).map
        Prod.fst).Nodup :=
    keys_nodup_fold g contribs [] (by simp)
  have hmapper : (getPeriodicStats contribs g).map PeriodStat.period
      = (contribs.foldl
        (fun acc c => bumpPeriod acc (periodKey g c.date) c.amount) []).map
          Prod.fst := by
    unfold getPeriodicStats
    dsimp only
    rw [List.map_map]
    rfl
  refine ⟨by rw [hmapper]; exact hkeys, ?_, ?_, ?_, ?_⟩
  · intro st hst
    unfold getPeriodicStats at hst
    dsimp only at hst
    obtain ⟨e, he, rfl⟩ := List.mem_map.mp hst
    have hl := lookup_eq_of_mem _ hkeys e he
    have hfold := fold_lookup g contribs [] e.1
    rw [show lookupPeriod [] e.1 = none from rfl, mergeOpt_none_left,
      hl] at hfold
    unfold groupOf at hfold
    by_cases hz : periodCount contribs g e.1 = 0
    · rw [if_pos hz] at hfold
      cases hfold
    · rw [if_neg hz] at hfold
      have he2 := Option.some.inj hfold
      refine ⟨?_, ?_, ?_, rfl⟩
      · show e.2.1 = periodSum contribs g e.1
        rw [he2]
      · show e.2.2 = periodCount contribs g e.1
        rw [he2]
      · show 1 ≤ e.2.2
        rw [he2]
        exact Nat.one_le_iff_ne_zero.mpr hz
  · intro c hc
    rw [hmapper]
    have hcount : periodCount contribs g (periodKey g c.date) ≠ 0 := by
      intro h0
      unfold periodCount at h0
      rw [List.countP_eq_zero] at h0
      exact (h0 c hc) (beq_self_eq_true _)
    have hfold := fold_lookup g contribs [] (periodKey g c.date)
    rw [show lookupPeriod [] (periodKey g c.date) = none from rfl,
      mergeOpt_none_left] at hfold
    unfold groupOf at hfold
    rw [if_neg hcount] at hfold
    exact key_mem_of_lookup_some _ _ _ hfold
  · intro d
    refine ⟨rfl, ?_, ?_⟩
    · unfold periodKey
      rw [if_neg (by decide), if_pos rfl]
    · unfold periodKey
      rw [if_neg (by decide), if_neg (by decide), if_pos rfl]
  · intro g d h1 h2 h3
    unfold periodKey
    rw [if_neg h1, if_neg h2, if_neg h3]

/-- C7 witness: the single sample contribution of January 2024 is
reported under its month key. -/
theorem periodicStats_spec_witness :
    periodKey "month" sampleContribution.date ∈
      (getPeriodicStats [sampleContribution] "month").map PeriodStat.period :=
  (periodicStats_spec [sampleContribution] "month").2.2.1 sampleContribution
    (List.mem_singleton_self _)
